import Mathlib

/-!
Shallow embedding of the Restaurant-Monitoring service, translated from
src/services.py, src/main.py and src/database.py.

Conventions of the embedding:
* Instants and civil datetimes are integer seconds.  Second 0 is the Unix
  epoch 1970-01-01 00:00:00, which was a Thursday; the Python
  `datetime.weekday()` method numbers Monday = 0, so the epoch day has weekday 3.
* A Python `datetime` value is modelled by `PyDatetime`: the naive civil
  field value in seconds together with an optional UTC offset
  (`none` = naive, `some o` = timezone-aware with utcoffset `o` seconds).
  Python raises `TypeError` when order-comparing a naive and an aware
  datetime; `pyLe` models the comparison with `Except`.
* A pytz timezone is modelled by its UTC offset in seconds (`Tz`); the
  zone database is an external collaborator and daylight-saving
  transitions are abstracted into a constant offset per zone.
* Python floats are modelled exactly in `ℚ`.
-/

inductive PyError where
  | typeError
  | ioError
  deriving DecidableEq

/-- A pytz timezone, abstracted to its UTC offset in seconds. -/
structure Tz where
  offset : Int
  deriving DecidableEq

/-- The timezone object pytz.utc. -/
def pytzUtc : Tz := ⟨0⟩

/-- Default zone of get_store_timezone: America/Chicago (CST, UTC-06:00). -/
def americaChicago : Tz := ⟨-21600⟩

/-- A Python datetime: naive civil seconds plus optional utcoffset. -/
structure PyDatetime where
  civil : Int
  tz : Option Int
  deriving DecidableEq

/-- Python datetime.replace(tzinfo=tz): sets the tzinfo, keeps civil fields. -/
def pyReplaceTz (a : PyDatetime) (t : Tz) : PyDatetime :=
  ⟨a.civil, some t.offset⟩

/-- Python datetime.astimezone(target): convert an aware datetime to the
target zone (a naive receiver is treated as system local time, which this
model fixes to UTC; the source never calls astimezone on a naive value). -/
def pyAstimezone (a : PyDatetime) (target : Tz) : PyDatetime :=
  match a.tz with
  | some o => ⟨a.civil - o + target.offset, some target.offset⟩
  | none => ⟨a.civil + target.offset, some target.offset⟩

/-- Python datetime - timedelta(seconds=s): civil fields shift, tzinfo kept. -/
def pySubSeconds (a : PyDatetime) (s : Int) : PyDatetime :=
  ⟨a.civil - s, a.tz⟩

/-- Python datetime.weekday(): Monday = 0 .. Sunday = 6. -/
def pyWeekday (a : PyDatetime) : Int :=
  (a.civil.fdiv 86400 + 3).emod 7

/-- Seconds of the midnight starting the civil day of a datetime; the model
of datetime.combine(local_time.date(), t) is pyMidnight local_time + t. -/
def pyMidnight (a : PyDatetime) : Int :=
  86400 * (a.civil.fdiv 86400)

/-- Python `a <= b` on datetimes: comparing a naive and an aware datetime
raises TypeError; two aware datetimes compare as instants, two naive ones
compare by civil value. -/
def pyLe (a b : PyDatetime) : Except PyError Bool :=
  match a.tz, b.tz with
  | none, none => .ok (decide (a.civil ≤ b.civil))
  | some oa, some ob => .ok (decide (a.civil - oa ≤ b.civil - ob))
  | _, _ => .error .typeError

/-! ## Database rows (src/database.py) -/

/-- A row of the store_status table. -/
structure StoreStatusRow where
  store_id : String
  timestamp_utc : Int
  status : String
  deriving DecidableEq

/-- A row of the business_hours table (times are seconds within the day). -/
structure BusinessHoursRow where
  store_id : String
  day_of_week : Int
  start_time_local : Int
  end_time_local : Int
  deriving DecidableEq

/-- A row of the timezone table. -/
structure TimezoneRow where
  store_id : String
  timezone_str : Tz
  deriving DecidableEq

/-- The read-only part of the database consumed by the engine. -/
structure Database where
  store_status : List StoreStatusRow
  business_hours : List BusinessHoursRow
  timezone : List TimezoneRow
  deriving DecidableEq

/-- A row of the report_status table. -/
structure ReportRecord where
  report_id : String
  status : String
  created_at : Int
  completed_at : Option Int
  deriving DecidableEq

/-! ## Resolvers (services.py lines 16-50) -/

/-- Business-hours dict handed to is_store_open. -/
structure BHRule where
  day_of_week : Int
  start_time_local : Int
  end_time_local : Int
  deriving DecidableEq

/-- Model of get_max_timestamp: SQL MAX over store_status.timestamp_utc; the scalar
is None exactly when the table is empty, in which case the code falls back
to datetime.utcnow(), modelled by the wallclock argument. -/
def get_max_timestamp (db : Database) (wallclock : Int) : Int :=
  match db.store_status.map (fun r => r.timestamp_utc) with
  | [] => wallclock
  | t :: ts => ts.foldl max t

/-- Model of get_store_timezone: first timezone row of the store, default
America/Chicago. -/
def get_store_timezone (store_id : String) (db : Database) : Tz :=
  match db.timezone.find? (fun r => r.store_id == store_id) with
  | some r => r.timezone_str
  | none => americaChicago

/-- Model of get_business_hours: the rows of the store, or the 24/7 default
(all seven days, 00:00:00-23:59:59) when it has none. -/
def get_business_hours (store_id : String) (db : Database) : List BHRule :=
  let hours := db.business_hours.filter (fun r => r.store_id == store_id)
  if hours = [] then
    (List.range 7).map (fun day => ⟨(day : Int), 0, 86399⟩)
  else
    hours.map (fun h => ⟨h.day_of_week, h.start_time_local, h.end_time_local⟩)

/-! ## is_store_open (services.py lines 52-72) -/

/-- The for-loop of is_store_open over the business-hours dicts.  For a rule
on the local weekday the source builds naive datetimes start_dt/end_dt with
datetime.combine and evaluates `start_dt <= local_time <= end_dt` against
the aware local_time, so pyLe decides the outcome (it raises there). -/
def checkRules (local_time : PyDatetime) (day_of_week : Int) :
    List BHRule → Except PyError Bool
  | [] => .ok false
  | h :: rest =>
    if h.day_of_week = day_of_week then
      let start_dt : PyDatetime := ⟨pyMidnight local_time + h.start_time_local, none⟩
      let end_dt : PyDatetime := ⟨pyMidnight local_time + h.end_time_local, none⟩
      match pyLe start_dt local_time with
      | .error e => .error e
      | .ok b1 =>
        if b1 then
          match pyLe local_time end_dt with
          | .error e => .error e
          | .ok b2 =>
            if b2 then .ok true else checkRules local_time day_of_week rest
        else checkRules local_time day_of_week rest
    else checkRules local_time day_of_week rest

/-- Model of is_store_open: convert the UTC instant to local time via the resolved
timezone, take the local weekday, and run the rule loop.  The store_id
argument is unused, as in the source. -/
def is_store_open (timestamp_utc : PyDatetime) (store_id : String)
    (business_hours : List BHRule) (tz_str : Tz) : Except PyError Bool :=
  let local_time := pyAstimezone (pyReplaceTz timestamp_utc pytzUtc) tz_str
  let day_of_week := pyWeekday local_time
  checkRules local_time day_of_week business_hours

/-! ## calculate_uptime_downtime (services.py lines 75-186) -/

/-- The UptimeResult dict assembled per store. -/
structure UptimeResult where
  store_id : String
  uptime_last_hour : ℚ
  uptime_last_day : ℚ
  uptime_last_week : ℚ
  downtime_last_hour : ℚ
  downtime_last_day : ℚ
  downtime_last_week : ℚ
  deriving DecidableEq

/-- The all-zero result dict returned on the two early-return paths. -/
def zeroResult (store_id : String) : UptimeResult :=
  ⟨store_id, 0, 0, 0, 0, 0, 0⟩

/-- Sequential effectful map over a list, stopping at the first raised
exception; models pandas .apply and Python for-loops over fallible calls. -/
def exMapM (f : α → Except PyError β) : List α → Except PyError (List β)
  | [] => .ok []
  | a :: l =>
    match f a with
    | .error e => .error e
    | .ok b =>
      match exMapM f l with
      | .error e => .error e
      | .ok bs => .ok (b :: bs)

/-- Insert a row into a list sorted ascending by timestamp. -/
def insertByTs (r : StoreStatusRow) : List StoreStatusRow → List StoreStatusRow
  | [] => [r]
  | x :: xs =>
    if r.timestamp_utc ≤ x.timestamp_utc then r :: x :: xs
    else x :: insertByTs r xs

/-- The ORDER BY timestamp_utc of the store-status query. -/
def sortByTs : List StoreStatusRow → List StoreStatusRow
  | [] => []
  | x :: xs => insertByTs x (sortByTs xs)

/-- The store-status query of calculate_uptime_downtime: rows of the store
whose timestamp lies in [current_time - 7 days, current_time]. -/
def weekObservations (store_id : String) (current_time : Int) (db : Database) :
    List StoreStatusRow :=
  db.store_status.filter (fun r =>
    r.store_id == store_id &&
    decide (current_time - 604800 ≤ r.timestamp_utc) &&
    decide (r.timestamp_utc ≤ current_time))

/-- Count of rows whose status field equals active. -/
def countActive (l : List StoreStatusRow) : Nat :=
  (l.filter (fun r => r.status == "active")).length

/-- The last-hour block: a single 60-minute unit scaled by the active
ratio of the in-hours observations of the last hour (no hourly stepping). -/
def lastHourMetrics (hour_df : List StoreStatusRow) : ℚ × ℚ :=
  if hour_df = [] then (0, 0)
  else
    let active_ratio : ℚ := (countActive hour_df : ℚ) / (hour_df.length : ℚ)
    (active_ratio * 60, 60 - active_ratio * 60)

/-- The last-day block: 24 hourly steps offset from current_time (walked in
local time, converted back to UTC for each is_store_open test), each open
hour contributing one unit of business time. -/
def lastDayMetrics (day_df : List StoreStatusRow) (current_time : Int)
    (store_id : String) (business_hours : List BHRule) (tz_str : Tz) :
    Except PyError (ℚ × ℚ) :=
  if day_df = [] then .ok (0, 0)
  else
    let active_ratio : ℚ := (countActive day_df : ℚ) / (day_df.length : ℚ)
    let current_local_time :=
      pyAstimezone (pyReplaceTz ⟨current_time, none⟩ pytzUtc) tz_str
    match exMapM (fun i =>
        is_store_open
          (pyAstimezone (pySubSeconds current_local_time (3600 * (i : Int))) pytzUtc)
          store_id business_hours tz_str) (List.range 24) with
    | .error e => .error e
    | .ok opens =>
      let total_business_hours : ℚ := ((opens.filter id).length : ℚ)
      .ok (active_ratio * total_business_hours,
           total_business_hours - active_ratio * total_business_hours)

/-- The last-week block: 168 hourly steps offset from the naive
current_time, each open hour contributing one unit of business time. -/
def lastWeekMetrics (week_df : List StoreStatusRow) (current_time : Int)
    (store_id : String) (business_hours : List BHRule) (tz_str : Tz) :
    Except PyError (ℚ × ℚ) :=
  if week_df = [] then .ok (0, 0)
  else
    let active_ratio : ℚ := (countActive week_df : ℚ) / (week_df.length : ℚ)
    match exMapM (fun i =>
        is_store_open ⟨current_time - 3600 * (i : Int), none⟩
          store_id business_hours tz_str) (List.range 168) with
    | .error e => .error e
    | .ok opens =>
      let total_business_hours : ℚ := ((opens.filter id).length : ℚ)
      .ok (active_ratio * total_business_hours,
           total_business_hours - active_ratio * total_business_hours)

/-- Model of calculate_uptime_downtime: resolve timezone and schedule, query the
trailing week of observations, mark each with the business-hours test
(pandas apply raises out of the whole call at the first TypeError), keep
the in-hours rows, then fill the three range blocks in source order. -/
def calculate_uptime_downtime (store_id : String) (current_time : Int)
    (db : Database) : Except PyError UptimeResult :=
  let tz_str := get_store_timezone store_id db
  let business_hours := get_business_hours store_id db
  let hour_ago := current_time - 3600
  let day_ago := current_time - 86400
  let status_records := sortByTs (weekObservations store_id current_time db)
  if status_records = [] then .ok (zeroResult store_id)
  else
    match exMapM (fun r =>
        is_store_open ⟨r.timestamp_utc, none⟩ store_id business_hours tz_str)
        status_records with
    | .error e => .error e
    | .ok is_business_hours =>
      let business_hours_df :=
        ((status_records.zip is_business_hours).filter (fun p => p.2)).map
          (fun p => p.1)
      if business_hours_df = [] then .ok (zeroResult store_id)
      else
        let hour_df := business_hours_df.filter
          (fun r => decide (hour_ago ≤ r.timestamp_utc))
        let hourPair := lastHourMetrics hour_df
        let day_df := business_hours_df.filter
          (fun r => decide (day_ago ≤ r.timestamp_utc))
        match lastDayMetrics day_df current_time store_id business_hours tz_str with
        | .error e => .error e
        | .ok dayPair =>
          let week_df := business_hours_df
          match lastWeekMetrics week_df current_time store_id business_hours tz_str with
          | .error e => .error e
          | .ok weekPair =>
            .ok ⟨store_id, hourPair.1, dayPair.1, weekPair.1,
                 hourPair.2, dayPair.2, weekPair.2⟩

/-! ## Report job engine (services.py lines 188-236, main.py lines 30-80) -/

/-- SELECT DISTINCT store_id in first-occurrence scan order, with an
accumulator of identifiers already emitted. -/
def distinctAux (seen : List String) : List String → List String
  | [] => []
  | x :: xs =>
    if x ∈ seen then distinctAux seen xs
    else x :: distinctAux (x :: seen) xs

/-- The distinct store identifiers of the store_status table, in
enumeration order. -/
def store_ids_of (db : Database) : List String :=
  distinctAux [] (db.store_status.map (fun r => r.store_id))

/-- The per-location loop of trigger_report_generation: one
calculate_uptime_downtime call per distinct store, aborted by the first
exception. -/
def computeResults (db : Database) (current_time : Int) :
    Except PyError (List UptimeResult) :=
  exMapM (fun sid => calculate_uptime_downtime sid current_time db)
    (store_ids_of db)

/-- The try-block of trigger_report_generation: freeze current_time from
get_max_timestamp once, run the per-location loop, then write the CSV
artifact (writeOk models whether the file write succeeds; wall2 is the
datetime.utcnow() recorded at completion). -/
def runGeneration (db : Database) (wall wall2 : Int) (writeOk : Bool) :
    Except PyError (List UptimeResult × Int) :=
  match computeResults db (get_max_timestamp db wall) with
  | .error e => .error e
  | .ok results => if writeOk then .ok (results, wall2) else .error .ioError

/-- The status update at the end of trigger_report_generation: on success
status becomes Complete and completed_at is recorded; in the except-branch
only status is assigned, to Error. -/
def applyGenerationToRecord (rec : ReportRecord)
    (out : Except PyError (List UptimeResult × Int)) : ReportRecord :=
  match out with
  | .ok (_, t) => { rec with status := "Complete", completed_at := some t }
  | .error _ => { rec with status := "Error" }

/-- State of the whole service: the report_status table, the queued
background tasks, and the written artifact files keyed by report id. -/
structure SysState where
  reports : List ReportRecord
  pending : List String
  files : List (String × List UptimeResult)
  deriving DecidableEq

/-- The operations of the service surface: POST /trigger_report, the
background task execution, and GET /get_report. -/
inductive Op where
  | trigger (rid : String) (created : Int)
  | runTask (rid : String) (db : Database) (wall wall2 : Int) (writeOk : Bool)
  | getReport (rid : String)

/-- The report_status lookup db.query(ReportStatus).filter(report_id).first(). -/
def findReport (s : SysState) (rid : String) : Option ReportRecord :=
  s.reports.find? (fun r => r.report_id == rid)

/-- One step of the service.  trigger_report inserts a fresh Running record
and queues the background task (an existing id violates the unique
constraint, so nothing happens); running a queued task applies the
generation outcome to the record (if still present) and stores the artifact
on success; get_report does not change state. -/
def step (s : SysState) : Op → SysState
  | .trigger rid created =>
    match findReport s rid with
    | some _ => s
    | none =>
      { s with
        reports := s.reports ++ [⟨rid, "Running", created, none⟩],
        pending := s.pending ++ [rid] }
  | .runTask rid db wall wall2 writeOk =>
    if rid ∈ s.pending then
      let out := runGeneration db wall wall2 writeOk
      { reports := s.reports.map (fun r =>
          if r.report_id = rid then applyGenerationToRecord r out else r),
        pending := s.pending.erase rid,
        files :=
          match out with
          | .ok (results, _) => s.files ++ [(rid, results)]
          | .error _ => s.files }
    else s
  | .getReport _ => s

/-- The empty initial state. -/
def initState : SysState := ⟨[], [], []⟩

/-- States reachable by a sequence of operations from the empty state. -/
def reachable (ops : List Op) : SysState :=
  ops.foldl step initState

/-- Responses of GET /get_report. -/
inductive GetReportResponse where
  | httpError (code : Nat) (detail : String)
  | runningMsg
  | fileResponse (path : String)
  deriving DecidableEq

/-- Model of get_report (main.py lines 50-80): 404 for an unknown id, the Running
signal, the CSV FileResponse for a Complete job whose file exists (404 if
the file is missing), and 500 for any other status, including Error. -/
def get_report (report_id : String) (s : SysState) : GetReportResponse :=
  match findReport s report_id with
  | none => .httpError 404 ("Report with ID " ++ report_id ++ " not found")
  | some st =>
    if st.status = "Running" then .runningMsg
    else if st.status = "Complete" then
      if s.files.any (fun e => e.1 == report_id) then
        .fileResponse ("reports/" ++ report_id ++ ".csv")
      else .httpError 404 "Report file not found"
    else .httpError 500 "Unknown report status"

/-- Invariant of reachable service states. -/
structure SysInv (s : SysState) : Prop where
  distinct : s.reports.Pairwise (fun a b => a.report_id ≠ b.report_id)
  pendingNodup : s.pending.Nodup
  pendingRunning : ∀ rid ∈ s.pending,
    ∃ r ∈ s.reports, r.report_id = rid ∧ r.status = "Running"
  completeFile : ∀ r ∈ s.reports, r.status = "Complete" →
    (∃ e ∈ s.files, e.1 = r.report_id) ∧ r.completed_at ≠ none
  runningNone : ∀ r ∈ s.reports, r.status = "Running" → r.completed_at = none
  errorNone : ∀ r ∈ s.reports, r.status = "Error" → r.completed_at = none

/-! ## Concrete databases used by the counterexample and witness theorems.
Timestamp 1209600 is 1970-01-15 00:00:00 UTC (weekday Thursday = 3); its
America/Chicago civil time is 1970-01-14 18:00:00 (weekday Wednesday = 2). -/

/-- One store with a recorded rule on its local weekday. -/
def dbMatchingRule : Database :=
  ⟨[⟨"s1", 1209600, "active"⟩], [⟨"s1", 2, 0, 86399⟩], []⟩

/-- One store with a recorded rule on its local weekday, UTC timezone row. -/
def dbSteppingStore : Database :=
  ⟨[⟨"s3", 1209601, "inactive"⟩], [⟨"s3", 3, 3600, 7200⟩], [⟨"s3", pytzUtc⟩]⟩

/-- One store with no schedule rows, so the 24/7 default applies. -/
def dbDefaultSchedule : Database :=
  ⟨[⟨"s2", 1209600, "active"⟩], [], []⟩

/-- One store whose only observation is older than the trailing week. -/
def dbStaleStore : Database :=
  ⟨[⟨"s4", 0, "active"⟩], [], []⟩

/-- Two stores used to evaluate the frozen reference instant. -/
def dbTwoStamps : Database :=
  ⟨[⟨"a", 5, "active"⟩, ⟨"b", 9, "inactive"⟩], [], []⟩

/-- One store whose recorded rule never matches its observation weekday,
so generation completes with an all-zero row. -/
def dbCompletingStore : Database :=
  ⟨[⟨"s5", 1209600, "active"⟩], [⟨"s5", 5, 0, 86399⟩], []⟩

/-- A second store with a weekday-matching rule, for the error-path
witness of the job state machine. -/
def dbFailingStore : Database :=
  ⟨[⟨"s6", 1209600, "active"⟩], [⟨"s6", 2, 0, 86399⟩], []⟩

deriving instance DecidableEq for Except

/-! ## Helper lemmas -/

theorem foldl_max_ub (ts : List Int) :
    ∀ (t x : Int), (x = t ∨ x ∈ ts) → x ≤ ts.foldl max t := by
  induction ts with
  | nil =>
    intro t x h
    rcases h with rfl | h
    · exact le_refl x
    · cases h
  | cons a ts ih =>
    intro t x h
    simp only [List.foldl_cons]
    rcases h with rfl | h
    · exact le_trans (le_max_left x a) (ih (max x a) _ (Or.inl rfl))
    · rcases List.mem_cons.mp h with rfl | h
      · exact le_trans (le_max_right t x) (ih (max t x) _ (Or.inl rfl))
      · exact ih (max t a) x (Or.inr h)

theorem foldl_max_mem (ts : List Int) :
    ∀ t : Int, ts.foldl max t = t ∨ ts.foldl max t ∈ ts := by
  induction ts with
  | nil => intro t; exact Or.inl rfl
  | cons a ts ih =>
    intro t
    simp only [List.foldl_cons]
    rcases ih (max t a) with h | h
    · rcases max_choice t a with hc | hc
      · exact Or.inl (h.trans hc)
      · refine Or.inr ?_
        rw [h, hc]
        exact List.mem_cons_self a ts
    · exact Or.inr (List.mem_cons_of_mem a h)

theorem mem_distinctAux (x : String) :
    ∀ (l seen : List String), x ∈ distinctAux seen l ↔ x ∈ l ∧ x ∉ seen := by
  intro l
  induction l with
  | nil =>
    intro seen
    simp [distinctAux]
  | cons a l ih =>
    intro seen
    simp only [distinctAux]
    by_cases ha : a ∈ seen
    · rw [if_pos ha, ih]
      constructor
      · rintro ⟨h1, h2⟩
        exact ⟨List.mem_cons_of_mem a h1, h2⟩
      · rintro ⟨h1, h2⟩
        rcases List.mem_cons.mp h1 with rfl | h1
        · exact absurd ha h2
        · exact ⟨h1, h2⟩
    · rw [if_neg ha]
      constructor
      · intro h
        rcases List.mem_cons.mp h with rfl | h
        · exact ⟨List.mem_cons_self _ _, ha⟩
        · rw [ih] at h
          refine ⟨List.mem_cons_of_mem a h.1, fun hx => h.2 (List.mem_cons_of_mem a hx)⟩
      · rintro ⟨h1, h2⟩
        rcases List.mem_cons.mp h1 with rfl | h1
        · exact List.mem_cons_self _ _
        · by_cases hxa : x = a
          · subst hxa
            exact List.mem_cons_self _ _
          · refine List.mem_cons_of_mem a ?_
            rw [ih]
            refine ⟨h1, fun hx => ?_⟩
            rcases List.mem_cons.mp hx with h | h
            · exact hxa h
            · exact h2 h

theorem nodup_distinctAux : ∀ (l seen : List String), (distinctAux seen l).Nodup := by
  intro l
  induction l with
  | nil =>
    intro seen
    simp [distinctAux]
  | cons a l ih =>
    intro seen
    simp only [distinctAux]
    by_cases ha : a ∈ seen
    · rw [if_pos ha]
      exact ih seen
    · rw [if_neg ha]
      refine List.nodup_cons.mpr ⟨fun hmem => ?_, ih _⟩
      rw [mem_distinctAux] at hmem
      exact hmem.2 (List.mem_cons_self a seen)

theorem exMapM_ok_zip {α β : Type} {f : α → Except PyError β} :
    ∀ {l : List α} {ys : List β}, exMapM f l = .ok ys →
      ys.length = l.length ∧ ∀ p ∈ l.zip ys, f p.1 = .ok p.2 := by
  intro l
  induction l with
  | nil =>
    intro ys h
    simp only [exMapM] at h
    cases h
    simp
  | cons a l ih =>
    intro ys h
    simp only [exMapM] at h
    cases hfa : f a with
    | error e => rw [hfa] at h; cases h
    | ok b =>
      rw [hfa] at h
      cases hrest : exMapM f l with
      | error e => rw [hrest] at h; cases h
      | ok bs =>
        rw [hrest] at h
        cases h
        obtain ⟨hlen, hall⟩ := ih hrest
        refine ⟨by simp [hlen], fun p hp => ?_⟩
        rw [List.zip_cons_cons] at hp
        rcases List.mem_cons.mp hp with rfl | hp
        · exact hfa
        · exact hall p hp

theorem exMapM_ok_map {α β : Type} {f : α → Except PyError β} {proj : β → α}
    (hf : ∀ a b, f a = .ok b → proj b = a) :
    ∀ {l : List α} {ys : List β}, exMapM f l = .ok ys → ys.map proj = l := by
  intro l
  induction l with
  | nil =>
    intro ys h
    simp only [exMapM] at h
    cases h
    rfl
  | cons a l ih =>
    intro ys h
    simp only [exMapM] at h
    cases hfa : f a with
    | error e => rw [hfa] at h; cases h
    | ok b =>
      rw [hfa] at h
      cases hrest : exMapM f l with
      | error e => rw [hrest] at h; cases h
      | ok bs =>
        rw [hrest] at h
        cases h
        simp [List.map_cons, hf a b hfa, ih hrest]

theorem calc_ok_store_id {sid : String} {t : Int} {db : Database} {r : UptimeResult}
    (h : calculate_uptime_downtime sid t db = .ok r) : r.store_id = sid := by
  simp only [calculate_uptime_downtime] at h
  split at h
  · cases h; rfl
  · split at h
    · cases h
    · split at h
      · cases h; rfl
      · split at h
        · cases h
        · split at h
          · cases h
          · cases h; rfl

theorem applyGen_report_id (rec : ReportRecord)
    (out : Except PyError (List UptimeResult × Int)) :
    (applyGenerationToRecord rec out).report_id = rec.report_id := by
  cases out with
  | error e => rfl
  | ok p => obtain ⟨res, t⟩ := p; rfl

theorem find_record_of_mem : ∀ {l : List ReportRecord},
    l.Pairwise (fun a b => a.report_id ≠ b.report_id) → ∀ {r : ReportRecord}, r ∈ l →
    l.find? (fun x => x.report_id == r.report_id) = some r := by
  intro l
  induction l with
  | nil =>
    intro _ r hr
    cases hr
  | cons x xs ih =>
    intro hd r hr
    rcases List.mem_cons.mp hr with rfl | hr
    · exact List.find?_cons_of_pos _ (by simp)
    · have hne : x.report_id ≠ r.report_id := (List.pairwise_cons.mp hd).1 r hr
      rw [List.find?_cons_of_neg _ (by simp [hne])]
      exact ih (List.pairwise_cons.mp hd).2 hr

theorem record_mem_unique {l : List ReportRecord}
    (hd : l.Pairwise (fun a b => a.report_id ≠ b.report_id)) :
    ∀ {a b : ReportRecord}, a ∈ l → b ∈ l → a.report_id = b.report_id → a = b := by
  induction l with
  | nil =>
    intro a b ha
    cases ha
  | cons x xs ih =>
    intro a b ha hb heq
    rcases List.mem_cons.mp ha with ha1 | ha2
    · rcases List.mem_cons.mp hb with hb1 | hb2
      · rw [ha1, hb1]
      · exfalso
        refine (List.pairwise_cons.mp hd).1 b hb2 ?_
        rw [← ha1]
        exact heq
    · rcases List.mem_cons.mp hb with hb1 | hb2
      · exfalso
        refine (List.pairwise_cons.mp hd).1 a ha2 ?_
        rw [← hb1]
        exact heq.symm
      · exact ih (List.pairwise_cons.mp hd).2 ha2 hb2 heq

theorem find_record_map_apply (rid q : String)
    (out : Except PyError (List UptimeResult × Int)) :
    ∀ l : List ReportRecord,
    (l.map (fun x => if x.report_id = rid then applyGenerationToRecord x out else x)).find?
        (fun x => x.report_id == q) =
      (l.find? (fun x => x.report_id == q)).map
        (fun x => if x.report_id = rid then applyGenerationToRecord x out else x) := by
  intro l
  induction l with
  | nil => rfl
  | cons x xs ih =>
    by_cases hx : x.report_id = q
    · rw [List.map_cons,
          List.find?_cons_of_pos _ (show _ = true by split <;> simp [applyGen_report_id, hx]),
          List.find?_cons_of_pos _ (by simp [hx])]
      rfl
    · rw [List.map_cons,
          List.find?_cons_of_neg _ (by split <;> simp [applyGen_report_id, hx]),
          List.find?_cons_of_neg _ (by simp [hx]), ih]

theorem sysInv_init : SysInv initState := by
  refine ⟨?_, ?_, ?_, ?_, ?_, ?_⟩ <;> simp [initState]

theorem sysInv_step {s : SysState} (hInv : SysInv s) (op : Op) : SysInv (step s op) := by
  cases op with
  | getReport rid => exact hInv
  | trigger rid created =>
    cases hfind : findReport s rid with
    | some r => simpa [step, hfind] using hInv
    | none =>
      have hno : ∀ x ∈ s.reports, x.report_id ≠ rid := by
        intro x hx
        have := List.find?_eq_none.mp hfind x hx
        simpa [beq_iff_eq] using this
      have hpend : rid ∉ s.pending := by
        intro hp
        obtain ⟨r, hr, hid, _⟩ := hInv.pendingRunning rid hp
        exact hno r hr hid
      simp only [step, hfind]
      refine ⟨?_, ?_, ?_, ?_, ?_, ?_⟩
      · rw [List.pairwise_append]
        refine ⟨hInv.distinct, List.pairwise_singleton _ _, ?_⟩
        intro a ha b hb
        rw [List.mem_singleton] at hb
        subst hb
        exact hno a ha
      · rw [List.nodup_append]
        refine ⟨hInv.pendingNodup, List.nodup_singleton _, ?_⟩
        intro a ha hb
        rw [List.mem_singleton] at hb
        subst hb
        exact hpend ha
      · intro rid2 h
        rcases List.mem_append.mp h with h | h
        · obtain ⟨r, hr, hid, hst⟩ := hInv.pendingRunning rid2 h
          exact ⟨r, List.mem_append_left _ hr, hid, hst⟩
        · rw [List.mem_singleton] at h
          subst h
          exact ⟨⟨rid2, "Running", created, none⟩,
            List.mem_append_right _ (List.mem_singleton.mpr rfl), rfl, rfl⟩
      · intro r hr hst
        rcases List.mem_append.mp hr with hr | hr
        · obtain ⟨⟨e, he, heq⟩, hsome⟩ := hInv.completeFile r hr hst
          exact ⟨⟨e, he, heq⟩, hsome⟩
        · rw [List.mem_singleton] at hr
          subst hr
          exact absurd hst (by simp)
      · intro r hr hst
        rcases List.mem_append.mp hr with hr | hr
        · exact hInv.runningNone r hr hst
        · rw [List.mem_singleton] at hr
          subst hr
          rfl
      · intro r hr hst
        rcases List.mem_append.mp hr with hr | hr
        · exact hInv.errorNone r hr hst
        · rw [List.mem_singleton] at hr
          subst hr
          exact absurd hst (by simp)
  | runTask rid db wall wall2 writeOk =>
    by_cases hp : rid ∈ s.pending
    · simp only [step, if_pos hp]
      have hgid : ∀ x : ReportRecord,
          (if x.report_id = rid
            then applyGenerationToRecord x (runGeneration db wall wall2 writeOk)
            else x).report_id = x.report_id := by
        intro x
        split
        · exact applyGen_report_id x _
        · rfl
      have hRunningAtRid : ∀ x ∈ s.reports, x.report_id = rid →
          x.status = "Running" ∧ x.completed_at = none := by
        intro x hx hxid
        obtain ⟨r0, hr0, hid0, hst0⟩ := hInv.pendingRunning rid hp
        have hx0 : x = r0 := record_mem_unique hInv.distinct hx hr0 (by rw [hxid, hid0])
        subst hx0
        exact ⟨hst0, hInv.runningNone x hr0 hst0⟩
      refine ⟨?_, ?_, ?_, ?_, ?_, ?_⟩
      · rw [List.pairwise_map]
        refine hInv.distinct.imp ?_
        intro a b hab
        rw [hgid a, hgid b]
        exact hab
      · exact hInv.pendingNodup.erase rid
      · intro rid2 h
        have h1 : rid2 ∈ s.pending := List.mem_of_mem_erase h
        have hne : rid2 ≠ rid := (hInv.pendingNodup.mem_erase_iff.mp h).1
        obtain ⟨r, hr, hid, hst⟩ := hInv.pendingRunning rid2 h1
        refine ⟨_, List.mem_map_of_mem _ hr, ?_, ?_⟩
        · rw [hgid r]
          exact hid
        · rw [if_neg (by rw [hid]; exact hne)]
          exact hst
      · intro r2 hr2 hst
        obtain ⟨x, hx, hgx⟩ := List.mem_map.mp hr2
        subst hgx
        by_cases hxid : x.report_id = rid
        · rw [if_pos hxid] at hst ⊢
          cases hout : runGeneration db wall wall2 writeOk with
          | error e =>
            rw [hout] at hst
            exact absurd hst (by simp [applyGenerationToRecord])
          | ok p =>
            obtain ⟨res, t⟩ := p
            constructor
            · refine ⟨(rid, res), ?_, ?_⟩
              · exact List.mem_append_right _ (List.mem_singleton.mpr rfl)
              · rw [applyGen_report_id, hxid]
            · simp [applyGenerationToRecord]
        · rw [if_neg hxid] at hst ⊢
          obtain ⟨⟨e, he, heq⟩, hsome⟩ := hInv.completeFile x hx hst
          refine ⟨⟨e, ?_, heq⟩, hsome⟩
          cases hout : runGeneration db wall wall2 writeOk with
          | error e2 => exact he
          | ok p =>
            obtain ⟨res, t⟩ := p
            exact List.mem_append_left _ he
      · intro r2 hr2 hst
        obtain ⟨x, hx, hgx⟩ := List.mem_map.mp hr2
        subst hgx
        by_cases hxid : x.report_id = rid
        · rw [if_pos hxid] at hst ⊢
          cases hout : runGeneration db wall wall2 writeOk with
          | error e =>
            rw [hout] at hst
            exact absurd hst (by simp [applyGenerationToRecord])
          | ok p =>
            obtain ⟨res, t⟩ := p
            rw [hout] at hst
            exact absurd hst (by simp [applyGenerationToRecord])
        · rw [if_neg hxid] at hst ⊢
          exact hInv.runningNone x hx hst
      · intro r2 hr2 hst
        obtain ⟨x, hx, hgx⟩ := List.mem_map.mp hr2
        subst hgx
        by_cases hxid : x.report_id = rid
        · rw [if_pos hxid] at hst ⊢
          cases hout : runGeneration db wall wall2 writeOk with
          | error e =>
            simp only [applyGenerationToRecord]
            exact (hRunningAtRid x hx hxid).2
          | ok p =>
            obtain ⟨res, t⟩ := p
            rw [hout] at hst
            exact absurd hst (by simp [applyGenerationToRecord])
        · rw [if_neg hxid] at hst ⊢
          exact hInv.errorNone x hx hst
    · simpa [step, if_neg hp] using hInv

theorem sysInv_foldl : ∀ (ops : List Op) {s : SysState}, SysInv s →
    SysInv (ops.foldl step s) := by
  intro ops
  induction ops with
  | nil =>
    intro s h
    exact h
  | cons op ops ih =>
    intro s h
    exact ih (sysInv_step h op)

theorem sysInv_reachable (ops : List Op) : SysInv (reachable ops) :=
  sysInv_foldl ops sysInv_init

theorem findReport_trigger_fresh {s : SysState} {rid : String} {created : Int}
    (h : findReport s rid = none) :
    findReport (step s (Op.trigger rid created)) rid =
      some ⟨rid, "Running", created, none⟩ := by
  simp only [step, h]
  unfold findReport at h ⊢
  rw [List.find?_append, h]
  simp [List.find?]

theorem findReport_trigger_found {s : SysState} {rid : String} {created : Int}
    {q : String} {r : ReportRecord} (hq : findReport s q = some r) :
    findReport (step s (Op.trigger rid created)) q = some r := by
  cases hfind : findReport s rid with
  | some x => simpa [step, hfind] using hq
  | none =>
    simp only [step, hfind]
    unfold findReport at hq ⊢
    rw [List.find?_append, hq]
    rfl

theorem findReport_runTask_hit {s : SysState} {rid : String}
    {db : Database} {wall wall2 : Int} {writeOk : Bool}
    (hp : rid ∈ s.pending) {r : ReportRecord} (hr : findReport s rid = some r) :
    findReport (step s (Op.runTask rid db wall wall2 writeOk)) rid =
      some (applyGenerationToRecord r (runGeneration db wall wall2 writeOk)) := by
  have hid : r.report_id = rid := by
    have := List.find?_some hr
    simpa [beq_iff_eq] using this
  simp only [step, if_pos hp, findReport]
  rw [find_record_map_apply]
  unfold findReport at hr
  rw [hr]
  simp [hid]

theorem findReport_runTask_other {s : SysState} {rid q : String} (hq : q ≠ rid)
    (db : Database) (wall wall2 : Int) (writeOk : Bool) :
    findReport (step s (Op.runTask rid db wall wall2 writeOk)) q = findReport s q := by
  by_cases hp : rid ∈ s.pending
  · simp only [step, if_pos hp, findReport]
    rw [find_record_map_apply]
    cases hfind : s.reports.find? (fun x => x.report_id == q) with
    | none => rfl
    | some r =>
      have hidq : r.report_id = q := by
        have := List.find?_some hfind
        simpa [beq_iff_eq] using this
      have : ¬ (r.report_id = rid) := by
        rw [hidq]
        exact hq
      simp [this]
  · simp [step, if_neg hp]

/-! ## Claim theorems -/

/-- Claim C1: the claim states that business-hours membership is decided by an
inclusive local time-of-day test against the rules of the local weekday,
returning false when no rule matches.  On the code only the second half
holds: with no rule on the local weekday (here Wednesday in
America/Chicago) the test returns false, but as soon as a rule matches the
local weekday the source compares the naive combine(...) datetimes with
the aware local_time and raises TypeError instead of returning the
membership boolean. -/
theorem c1_membership_test_crashes :
    is_store_open ⟨1209600, none⟩ "s" [⟨4, 0, 86399⟩] americaChicago = .ok false ∧
    is_store_open ⟨1209600, none⟩ "s" [⟨2, 0, 86399⟩] americaChicago =
      .error .typeError :=
  ⟨by decide, by decide⟩

/-- Claim C3: the claim relates uptime, downtime, active_ratio and
total_business_duration for every range with a non-empty in-hours
observation set.  On the code the in-hours observation set can never
become non-empty: marking any observation whose local weekday has a
matching rule raises TypeError, so calculate_uptime_downtime raises
instead of computing the metrics.  Here the store has an observation
inside the trailing week and a rule on its local weekday, and the whole
computation returns the TypeError instead of a result obeying the
algebra. -/
theorem c3_metric_algebra_unreachable :
    weekObservations "s1" 1209600 dbMatchingRule ≠ [] ∧
    calculate_uptime_downtime "s1" 1209600 dbMatchingRule = .error .typeError :=
  ⟨by decide, by decide⟩

/-- Claim C6: the claim describes the hourly stepping (24 and 168 steps) of the
1-day and 1-week total business-duration for locations with a non-empty
in-hours observation set.  On the code those loops are dead: the in-hours
set cannot become non-empty (see C3), and the stepping loops themselves
raise TypeError at their first business-hours test, as both block helpers
and the full computation show at this input. -/
theorem c6_hourly_stepping_unreachable :
    lastDayMetrics [⟨"s3", 1209601, "inactive"⟩] 1209601 "s3" [⟨3, 3600, 7200⟩]
        pytzUtc = .error .typeError ∧
    lastWeekMetrics [⟨"s3", 1209601, "inactive"⟩] 1209601 "s3" [⟨3, 3600, 7200⟩]
        pytzUtc = .error .typeError ∧
    calculate_uptime_downtime "s3" 1209601 dbSteppingStore = .error .typeError :=
  ⟨by decide, by decide, by decide⟩

/-- Claim C8: the claim gives the full wall-clock span as total business-duration
for a location with the default seven-day 00:00:00-23:59:59 schedule and a
non-empty in-hours observation set.  The default schedule is indeed
resolved for a store without rules, but the default covers every weekday,
so the very first business-hours test of any observation raises TypeError
and no in-hours set, hence no total business-duration, is ever computed. -/
theorem c8_default_schedule_crashes :
    get_business_hours "s2" dbDefaultSchedule =
      (List.range 7).map (fun day => ⟨(day : Int), 0, 86399⟩) ∧
    calculate_uptime_downtime "s2" 1209600 dbDefaultSchedule = .error .typeError :=
  ⟨by decide, by decide⟩

/-- Claim C5: a location with zero observations in the trailing week range
[now - 7d, now] yields all six metrics equal to 0 and raises no error:
the empty status_records query short-circuits before any business-hours
test. -/
theorem c5_zero_observations_zero_metrics (sid : String) (current_time : Int)
    (db : Database) (h : weekObservations sid current_time db = []) :
    calculate_uptime_downtime sid current_time db = .ok (zeroResult sid) := by
  simp [calculate_uptime_downtime, h, sortByTs]

/-- Claim C5 witness: a store whose only observation is a week too old. -/
theorem c5_zero_observations_zero_metrics_witness :
    calculate_uptime_downtime "s4" 1209600 dbStaleStore = .ok (zeroResult "s4") :=
  c5_zero_observations_zero_metrics "s4" 1209600 dbStaleStore (by decide)

/-- Claim C4: the reference instant of a job run is get_max_timestamp, computed
once at job start: it is the maximum observed timestamp over all
StatusObservation rows when any exist, the wall-clock fallback otherwise,
and every per-location result of a successful generation run comes from
calculate_uptime_downtime at that single frozen instant. -/
theorem c4_frozen_reference_instant (db : Database) (wall wall2 : Int)
    (writeOk : Bool) :
    (db.store_status = [] → get_max_timestamp db wall = wall) ∧
    (db.store_status ≠ [] →
      get_max_timestamp db wall ∈ db.store_status.map (fun r => r.timestamp_utc) ∧
      ∀ t1 ∈ db.store_status.map (fun r => r.timestamp_utc),
        t1 ≤ get_max_timestamp db wall) ∧
    (∀ res ct, runGeneration db wall wall2 writeOk = .ok (res, ct) →
      res.length = (store_ids_of db).length ∧
      ∀ p ∈ (store_ids_of db).zip res,
        calculate_uptime_downtime p.1 (get_max_timestamp db wall) db = .ok p.2) := by
  refine ⟨?_, ?_, ?_⟩
  · intro h
    simp [get_max_timestamp, h]
  · intro h
    cases hss : db.store_status with
    | nil => exact absurd hss h
    | cons a rs =>
      constructor
      · simp only [get_max_timestamp, hss, List.map_cons]
        rcases foldl_max_mem (rs.map (fun r => r.timestamp_utc)) a.timestamp_utc
          with hm | hm
        · rw [hm]
          exact List.mem_cons_self _ _
        · exact List.mem_cons_of_mem _ hm
      · intro t1 ht1
        simp only [get_max_timestamp, hss, List.map_cons]
        rw [List.map_cons] at ht1
        rcases List.mem_cons.mp ht1 with rfl | ht1
        · exact foldl_max_ub _ _ _ (Or.inl rfl)
        · exact foldl_max_ub _ _ _ (Or.inr ht1)
  · intro res ct h
    unfold runGeneration at h
    cases hcr : computeResults db (get_max_timestamp db wall) with
    | error e => rw [hcr] at h; cases h
    | ok results =>
      rw [hcr] at h
      cases writeOk with
      | false => cases h
      | true =>
        cases h
        exact exMapM_ok_zip hcr

/-- Claim C4 witness: with two observations the frozen instant is their maximum
timestamp and bounds both of them. -/
theorem c4_frozen_reference_instant_witness :
    get_max_timestamp dbTwoStamps 0 ∈
      dbTwoStamps.store_status.map (fun r => r.timestamp_utc) ∧
    (5 : Int) ≤ get_max_timestamp dbTwoStamps 0 := by
  have h := (c4_frozen_reference_instant dbTwoStamps 0 0 true).2.1 (by decide)
  exact ⟨h.1, h.2 5 (by decide)⟩

/-- Claim C9: a successfully generated artifact has exactly one row per distinct
location identifier of the store_status table, in enumeration order (the
row store_id sequence equals the distinct-id scan and is duplicate-free),
and a location without any status observation, whatever schedule or
timezone rows it has, gets no row. -/
theorem c9_one_row_per_observed_location (db : Database) (wall wall2 : Int)
    (writeOk : Bool) (res : List UptimeResult) (ct : Int)
    (h : runGeneration db wall wall2 writeOk = .ok (res, ct)) :
    res.map (fun r => r.store_id) = store_ids_of db ∧
    (store_ids_of db).Nodup ∧
    (∀ sid, sid ∈ store_ids_of db ↔
      sid ∈ db.store_status.map (fun r => r.store_id)) ∧
    (∀ sid, (∀ o ∈ db.store_status, o.store_id ≠ sid) →
      sid ∉ res.map (fun r => r.store_id)) := by
  have hcomp : computeResults db (get_max_timestamp db wall) = .ok res := by
    unfold runGeneration at h
    cases hcr : computeResults db (get_max_timestamp db wall) with
    | error e => rw [hcr] at h; cases h
    | ok results =>
      rw [hcr] at h
      cases writeOk with
      | false => cases h
      | true => cases h; rfl
  have hmap : res.map (fun r => r.store_id) = store_ids_of db := by
    unfold computeResults at hcomp
    exact exMapM_ok_map (fun a b hb => calc_ok_store_id hb) hcomp
  have hmem : ∀ sid, sid ∈ store_ids_of db ↔
      sid ∈ db.store_status.map (fun r => r.store_id) := by
    intro sid
    unfold store_ids_of
    rw [mem_distinctAux]
    simp
  refine ⟨hmap, nodup_distinctAux _ _, hmem, ?_⟩
  intro sid hno hmemres
  rw [hmap] at hmemres
  rw [hmem sid] at hmemres
  obtain ⟨o, ho, hoid⟩ := List.mem_map.mp hmemres
  exact hno o ho hoid

/-- Claim C9 witness: a database whose single store completes with an all-zero
row; the artifact rows are exactly the identifier of that store. -/
theorem c9_one_row_per_observed_location_witness :
    ([zeroResult "s5"]).map (fun r => r.store_id) = store_ids_of dbCompletingStore :=
  (c9_one_row_per_observed_location dbCompletingStore 0 42 true
    [zeroResult "s5"] 42 (by decide)).1

/-- Claim C2: report-job lifecycle over every reachable service state: (1) a
trigger for a fresh identifier creates the record with status Running;
(2) a record in a terminal state (Complete or Error) is left unchanged by
every operation; (3) any operation that changes the status of a record starts
from Running and ends in Complete with a recorded completion instant or in
Error; (4) a queued generation task performs exactly the transition given
by its outcome, Complete on success and Error on any exception. -/
theorem c2_report_job_lifecycle (ops : List Op) (op : Op) :
    (∀ rid created, findReport (reachable ops) rid = none →
      findReport (step (reachable ops) (Op.trigger rid created)) rid =
        some ⟨rid, "Running", created, none⟩) ∧
    (∀ r, r ∈ (reachable ops).reports →
      (r.status = "Complete" ∨ r.status = "Error") →
      findReport (step (reachable ops) op) r.report_id = some r) ∧
    (∀ r r2, r ∈ (reachable ops).reports →
      findReport (step (reachable ops) op) r.report_id = some r2 →
      r2.status ≠ r.status →
      r.status = "Running" ∧
        ((r2.status = "Complete" ∧ r2.completed_at ≠ none) ∨ r2.status = "Error")) ∧
    (∀ rid db wall wall2 writeOk r, rid ∈ (reachable ops).pending →
      findReport (reachable ops) rid = some r →
      findReport (step (reachable ops) (Op.runTask rid db wall wall2 writeOk)) rid =
        some (applyGenerationToRecord r (runGeneration db wall wall2 writeOk))) := by
  have hInv := sysInv_reachable ops
  refine ⟨?_, ?_, ?_, ?_⟩
  · intro rid created h
    exact findReport_trigger_fresh h
  · intro r hr hterm
    have hfr : findReport (reachable ops) r.report_id = some r :=
      find_record_of_mem hInv.distinct hr
    cases op with
    | getReport q => exact hfr
    | trigger q created => exact findReport_trigger_found hfr
    | runTask q db wall wall2 writeOk =>
      by_cases hq : r.report_id = q
      · by_cases hp : q ∈ (reachable ops).pending
        · exfalso
          obtain ⟨r0, hr0, hid0, hst0⟩ := hInv.pendingRunning q hp
          have : r = r0 :=
            record_mem_unique hInv.distinct hr hr0 (by rw [hq, hid0])
          subst this
          rcases hterm with hterm | hterm <;> rw [hst0] at hterm <;> simp at hterm
        · rw [step, if_neg hp]
          exact hfr
      · rw [findReport_runTask_other hq]
        exact hfr
  · intro r r2 hr hr2 hne
    have hfr : findReport (reachable ops) r.report_id = some r :=
      find_record_of_mem hInv.distinct hr
    cases op with
    | getReport q =>
      simp only [step] at hr2
      rw [hfr] at hr2
      cases hr2
      exact absurd rfl hne
    | trigger q created =>
      rw [findReport_trigger_found hfr] at hr2
      cases hr2
      exact absurd rfl hne
    | runTask q db wall wall2 writeOk =>
      by_cases hq : r.report_id = q
      · by_cases hp : q ∈ (reachable ops).pending
        · obtain ⟨r0, hr0, hid0, hst0⟩ := hInv.pendingRunning q hp
          have hrr0 : r = r0 :=
            record_mem_unique hInv.distinct hr hr0 (by rw [hq, hid0])
          subst hrr0
          rw [hq] at hfr
          rw [hq, findReport_runTask_hit hp hfr] at hr2
          cases hr2
          refine ⟨hst0, ?_⟩
          cases hout : runGeneration db wall wall2 writeOk with
          | error e => exact Or.inr rfl
          | ok p =>
            obtain ⟨res, t⟩ := p
            exact Or.inl ⟨rfl, by simp [applyGenerationToRecord]⟩
        · rw [step, if_neg hp] at hr2
          rw [hfr] at hr2
          cases hr2
          exact absurd rfl hne
      · rw [findReport_runTask_other hq] at hr2
        rw [hfr] at hr2
        cases hr2
        exact absurd rfl hne
  · intro rid db wall wall2 writeOk r hp hr
    exact findReport_runTask_hit hp hr

/-- Claim C2 witness: triggering a fresh identifier on the empty state creates
its Running record. -/
theorem c2_report_job_lifecycle_witness :
    findReport (step (reachable []) (Op.trigger "a" 0)) "a" =
      some ⟨"a", "Running", 0, none⟩ :=
  (c2_report_job_lifecycle [] (Op.getReport "a")).1 "a" 0 rfl

/-- Claim C7: responses of GET /get_report over every reachable state: an unknown
report id gives the 404 not-found condition, a Running job the still-running
signal, a Complete job the artifact file response (its artifact exists in
every reachable state), and an Error job an explicit error response and
never an artifact. -/
theorem c7_get_report_responses (ops : List Op) (rid : String) :
    (findReport (reachable ops) rid = none →
      get_report rid (reachable ops) =
        .httpError 404 ("Report with ID " ++ rid ++ " not found")) ∧
    (∀ r, findReport (reachable ops) rid = some r →
      (r.status = "Running" → get_report rid (reachable ops) = .runningMsg) ∧
      (r.status = "Complete" →
        get_report rid (reachable ops) =
          .fileResponse ("reports/" ++ rid ++ ".csv")) ∧
      (r.status = "Error" →
        get_report rid (reachable ops) =
          .httpError 500 "Unknown report status")) := by
  have hInv := sysInv_reachable ops
  refine ⟨?_, ?_⟩
  · intro h
    simp [get_report, h]
  · intro r h
    refine ⟨?_, ?_, ?_⟩
    · intro hst
      simp [get_report, h, hst]
    · intro hst
      have hmem : r ∈ (reachable ops).reports := List.mem_of_find?_eq_some h
      have hid : r.report_id = rid := by
        have := List.find?_some h
        simpa [beq_iff_eq] using this
      obtain ⟨⟨e, he, heq⟩, _⟩ := hInv.completeFile r hmem hst
      have hany : (reachable ops).files.any (fun x => x.1 == rid) = true := by
        rw [List.any_eq_true]
        exact ⟨e, he, by rw [beq_iff_eq, heq, hid]⟩
      simp [get_report, h, hst, hany]
    · intro hst
      simp [get_report, h, hst]

/-- Claim C7 witness: querying an unknown identifier on the empty state is the
not-found condition. -/
theorem c7_get_report_responses_witness :
    get_report "x" (reachable []) =
      .httpError 404 ("Report with ID " ++ "x" ++ " not found") :=
  (c7_get_report_responses [] "x").1 rfl

/-- Claim C10: on a queued task whose generation raises, the record keeps every
field except status, which becomes Error; in particular completed_at stays
none, as it was while Running; on success status becomes Complete and
completed_at is set to the completion instant. -/
theorem c10_error_transition_frame (ops : List Op) (rid : String)
    (db : Database) (wall wall2 : Int) (writeOk : Bool) (r : ReportRecord)
    (hp : rid ∈ (reachable ops).pending)
    (hr : findReport (reachable ops) rid = some r) :
    (∀ e, runGeneration db wall wall2 writeOk = .error e →
      findReport (step (reachable ops) (Op.runTask rid db wall wall2 writeOk)) rid =
        some { r with status := "Error" } ∧ r.completed_at = none) ∧
    (∀ res ct, runGeneration db wall wall2 writeOk = .ok (res, ct) →
      findReport (step (reachable ops) (Op.runTask rid db wall wall2 writeOk)) rid =
        some { r with status := "Complete", completed_at := some ct }) := by
  have hInv := sysInv_reachable ops
  have hmem : r ∈ (reachable ops).reports := List.mem_of_find?_eq_some hr
  have hid : r.report_id = rid := by
    have := List.find?_some hr
    simpa [beq_iff_eq] using this
  have hnone : r.completed_at = none := by
    obtain ⟨r0, hr0, hid0, hst0⟩ := hInv.pendingRunning rid hp
    have hrr : r = r0 := record_mem_unique hInv.distinct hmem hr0 (by rw [hid, hid0])
    subst hrr
    exact hInv.runningNone r hmem hst0
  have hhit := @findReport_runTask_hit (reachable ops) rid db wall wall2 writeOk hp r hr
  refine ⟨?_, ?_⟩
  · intro e he
    rw [he] at hhit
    exact ⟨hhit, hnone⟩
  · intro res ct hok
    rw [hok] at hhit
    exact hhit

/-- Claim C10 witness: running the queued task of a database whose generation
raises leaves created_at and completed_at untouched and only flips the
status to Error. -/
theorem c10_error_transition_frame_witness :
    findReport (step (reachable [Op.trigger "a" 0])
        (Op.runTask "a" dbFailingStore 0 7 true)) "a" =
      some ⟨"a", "Error", 0, none⟩ :=
  ((c10_error_transition_frame [Op.trigger "a" 0] "a" dbFailingStore 0 7 true
    ⟨"a", "Running", 0, none⟩ (by decide) rfl).1 .typeError (by decide)).1
